import Mathlib

/-!
Verification development for the svs_label repository (src/label_switcher.py).

The file models the BigTIFF container reader, the label/macro locator, the
offset patcher and the splice writer of label_switcher.py as executable Lean
definitions over byte lists, and proves the frozen claims about them.

Files are modelled as lists of bytes (List Nat, each element a byte value).
Python exceptions are modelled by the PyError type; fallible operations
return Except PyError.
-/

set_option maxRecDepth 100000

namespace SvsLabel

/-- Python exception kinds raised (explicitly or implicitly) by the code.
The auxImageNotFound constructor is modelled from the spec's error taxonomy
section; no such exception class exists anywhere in the code. -/
inductive PyError where
  | typeError
  | keyError
  | valueError
  | structError
  | exc : String → PyError
  | runtimeError : String → PyError
  | auxImageNotFound : String → PyError
  deriving Repr, DecidableEq

/-- Little-endian decoding of a byte list, as struct.unpack does for
unsigned integers. -/
def leDecode : List Nat → Nat
  | [] => 0
  | b :: bs => b % 256 + 256 * leDecode bs

/-- Little-endian encoding of v into w bytes, as struct.pack does. -/
def leEncode (w v : Nat) : List Nat :=
  match w with
  | 0 => []
  | n + 1 => v % 256 :: leEncode n (v / 256)

/-- Read n bytes at offset off; none models a short read, on which
struct.unpack raises struct.error. -/
def readBytes (f : List Nat) (off n : Nat) : Option (List Nat) :=
  if off + n ≤ f.length then some ((f.drop off).take n) else none

/-- Read a w-byte little-endian unsigned integer at offset off. -/
def readU (f : List Nat) (off w : Nat) : Option Nat :=
  (readBytes f off w).map leDecode

/-- In-place write of the bytes d at offset off, with Python file
semantics: bytes before and after the written region are preserved, a seek
past the end pads with zero bytes, a write past the end extends the file. -/
def writeBytes (f : List Nat) (off : Nat) (d : List Nat) : List Nat :=
  f.take off ++ List.replicate (off - f.length) 0 ++ d ++ f.drop (off + d.length)

/-- Contiguous-substring test, as the Python expression sub in hay on
bytes or str values. -/
def containsSub {α : Type} [BEq α] (hay needle : List α) : Bool :=
  match hay with
  | [] => needle.isEmpty
  | _ :: t => needle.isPrefixOf hay || containsSub t needle

/-- Modelled from the spec: the TypeTable byte size of each tag value type
(the constants module with FORMAT_CHARACTERS is not under src/).  Unknown
types have no entry, and looking them up raises KeyError. -/
def typeSize : Nat → Option Nat
  | 1 => some 1
  | 2 => some 1
  | 3 => some 2
  | 4 => some 4
  | 5 => some 8
  | 6 => some 1
  | 7 => some 1
  | 8 => some 2
  | 9 => some 4
  | 10 => some 8
  | 11 => some 4
  | 12 => some 8
  | 16 => some 8
  | 17 => some 8
  | 18 => some 8
  | _ => none

/-- Modelled from the spec: the COMPRESSION code table mapping a raw
compression code to its name (the constants module is not under src/). -/
def compressionName : Nat → Option String
  | 1 => some "Uncompressed"
  | 5 => some "LZW"
  | 6 => some "JPEG (old)"
  | 7 => some "JPEG"
  | _ => none

/-- Decoded tag value: a tuple of integers, a joined ASCII byte string, a
tuple of one-byte strings (inline ASCII), or the sentinel string returned
for oversized values outside the materialization allow-list. -/
inductive IFDValue where
  | ints : List Nat → IFDValue
  | bytesVal : List Nat → IFDValue
  | charTuple : List Nat → IFDValue
  | tooLong : IFDValue
  deriving Repr, DecidableEq

/-- Partition of a byte list into chunks of w + 1 bytes, structurally
recursive on a fuel bound (one element is consumed per step, so a fuel of
the list's length always suffices). -/
def chunksByF (w : Nat) : Nat → List Nat → List (List Nat)
  | 0, _ => []
  | _ + 1, [] => []
  | fuel + 1, a :: rest => (a :: rest.take w) :: chunksByF w fuel (rest.drop w)

/-- Partition a byte list into chunks of w + 1 bytes. -/
def chunksBy (w : Nat) (bs : List Nat) : List (List Nat) :=
  chunksByF w bs.length bs

/-- Decode raw value bytes according to the type's format: ASCII gives a
tuple of one-byte strings, rationals give numerator/denominator pairs of
4-byte integers, every other type gives fixed-width integers of the type's
size. -/
def decodeElems (typ sz : Nat) (bs : List Nat) : IFDValue :=
  if typ = 2 then IFDValue.charTuple bs
  else if typ = 5 ∨ typ = 10 then IFDValue.ints ((chunksBy 3 bs).map leDecode)
  else IFDValue.ints ((chunksBy (sz - 1) bs).map leDecode)

/-- BigTiffFile._ifd_value: decode a tag entry's value.  An encoded length
of at most 8 bytes is decoded from the in-place value slot (at
pre_data_offset); a longer value is materialized from the pointer target
only for tags 270 and 258 (joined into one byte string when ASCII); every
other oversized tag yields the sentinel. -/
def ifd_value (f : List Nat) (tag typ cnt pre_data data_off : Nat) :
    Except PyError IFDValue :=
  match typeSize typ with
  | none => Except.error PyError.keyError
  | some sz =>
    if cnt * sz ≤ 8 then
      match readBytes f pre_data (cnt * sz) with
      | none => Except.error PyError.structError
      | some bs => Except.ok (decodeElems typ sz bs)
    else if tag = 270 ∨ tag = 258 then
      match readBytes f data_off (cnt * sz) with
      | none => Except.error PyError.structError
      | some bs =>
        Except.ok (if typ = 2 then IFDValue.bytesVal bs else decodeElems typ sz bs)
    else Except.ok IFDValue.tooLong

/-- One parsed tag entry, mirroring the per-tag dict built by _read_IFDs. -/
structure IFDEntry where
  pre_tag_offset : Nat
  ifd_type : Nat
  ifd_count : Nat
  pre_data_offset : Nat
  data_offset : Nat
  value : IFDValue
  deriving Repr, DecidableEq

/-- Python dict assignment d[k] = v: an existing key keeps its position and
gets the new value; a new key is appended. -/
def dictInsert (k : Nat) (v : IFDEntry) :
    List (Nat × IFDEntry) → List (Nat × IFDEntry)
  | [] => [(k, v)]
  | (k', v') :: rest =>
    if k' = k then (k, v) :: rest else (k', v') :: dictInsert k v rest

/-- Python dict lookup d[k], returning none on a missing key. -/
def dictGet (k : Nat) : List (Nat × IFDEntry) → Option IFDEntry
  | [] => none
  | (k', v') :: rest => if k' = k then some v' else dictGet k rest

/-- Read n consecutive 20-byte tag entry records starting at offset off:
2-byte tag, 2-byte type, 8-byte count, then the 8-byte value/offset slot at
the recorded pre-data offset, with the value decoded by ifd_value. -/
def readEntries (f : List Nat) (off : Nat) :
    Nat → Except PyError (List (Nat × IFDEntry))
  | 0 => Except.ok []
  | n + 1 =>
    match readU f off 2, readU f (off + 2) 2, readU f (off + 4) 8,
        readU f (off + 12) 8 with
    | some tg, some typ, some cnt, some doff =>
      match ifd_value f tg typ cnt (off + 12) doff with
      | Except.error e => Except.error e
      | Except.ok v =>
        match readEntries f (off + 20) n with
        | Except.error e => Except.error e
        | Except.ok rest =>
          Except.ok ((tg, (⟨off, typ, cnt, off + 12, doff, v⟩ : IFDEntry)) :: rest)
    | _, _, _, _ => Except.error PyError.structError

/-- One parsed directory: the per-tag entry dict in insertion order, the
directory's own offset, the offset of the trailing next-directory pointer
field, and the next-directory offset read from it. -/
structure DirInfo where
  entries : List (Nat × IFDEntry)
  directory_offset : Nat
  pre_offset_offset : Nat
  next_ifd_offset : Nat
  deriving Repr, DecidableEq

/-- Fold the raw entry records into a Python dict keyed by tag number. -/
def dictOfList (raw : List (Nat × IFDEntry)) : List (Nat × IFDEntry) :=
  raw.foldl (fun d p => dictInsert p.1 p.2 d) []

/-- BigTiffFile._read_IFDs: read one directory at directory_offset: an
8-byte entry count, that many 20-byte entries collected into a dict keyed
by tag, then the 8-byte next-directory offset. -/
def read_IFDs (f : List Nat) (directory_offset : Nat) : Except PyError DirInfo :=
  match readU f directory_offset 8 with
  | none => Except.error PyError.structError
  | some n =>
    match readEntries f (directory_offset + 8) n with
    | Except.error e => Except.error e
    | Except.ok raw =>
      match readU f (directory_offset + 8 + 20 * n) 8 with
      | none => Except.error PyError.structError
      | some nxt =>
        Except.ok ⟨dictOfList raw, directory_offset,
          directory_offset + 8 + 20 * n, nxt⟩

/-- BigTiffFile._read_header: validate the 16-byte preamble (order marker
II, version 43, offset size 8, reserved 0) and return the first directory
offset; any mismatch raises a fatal exception. -/
def read_header (f : List Nat) : Except PyError Nat :=
  match readBytes f 0 2, readU f 2 2, readU f 4 2, readU f 6 2, readU f 8 8 with
  | some en, some ver, some osz, some res, some fo =>
    if en = [73, 73] ∧ ver = 43 ∧ osz = 8 ∧ res = 0 then Except.ok fo
    else Except.error (PyError.exc "File Not Supported")
  | _, _, _, _, _ => Except.error PyError.structError

/-- Directory chain walk of BigTiffFile.__init__: follow next-directory
offsets until 0.  The fuel argument bounds the traversal depth (the code
loops until it reads a zero offset); exhausted fuel is a model artifact
reported as an error. -/
def read_chain (f : List Nat) : Nat → Nat → Except PyError (List DirInfo)
  | 0, off => if off = 0 then Except.ok [] else Except.error PyError.structError
  | fuel + 1, off =>
    if off = 0 then Except.ok []
    else
      match read_IFDs f off with
      | Except.error e => Except.error e
      | Except.ok d =>
        match read_chain f fuel d.next_ifd_offset with
        | Except.error e => Except.error e
        | Except.ok rest => Except.ok (d :: rest)

/-- Descriptor of a located auxiliary image: its 1-based directory number,
its strip data offset and its strip byte count (both read from the raw
value slots of tags 273 and 279). -/
structure AuxInfo where
  directory : Nat
  strip_offset : Nat
  strip_byte_counts : Nat
  deriving Repr, DecidableEq

/-- ASCII bytes of the needle strings used by the classification tests. -/
def needleLabel : List Nat := [108, 97, 98, 101, 108]

def needleLabelCap : List Nat := [76, 97, 98, 101, 108]

def needleMac : List Nat := [109, 97, 99, 114, 111]

def needleMacCap : List Nat := [77, 97, 99, 114, 111]

/-- The Python expression needle in desc, where desc is the decoded value
of tag 270 or None when the tag is absent.  Containment in None (or in the
sentinel str with a bytes needle) raises TypeError; containment in a bytes
value is a substring test; containment in a tuple compares the needle with
each element for equality. -/
def descContains (needle : List Nat) : Option IFDValue → Except PyError Bool
  | none => Except.error PyError.typeError
  | some (IFDValue.bytesVal bs) => Except.ok (containsSub bs needle)
  | some (IFDValue.ints _) => Except.ok false
  | some (IFDValue.charTuple cs) =>
    Except.ok ((cs.map (fun c => [c])).contains needle)
  | some IFDValue.tooLong => Except.error PyError.typeError

/-- Lazy disjunction of the candidate test: compression name match, else
needle containment in the description, else capitalized needle containment
(short-circuiting exactly as the Python or chain does). -/
def roleTest (compMatch : Bool) (desc : Option IFDValue) (n1 n2 : List Nat) :
    Except PyError Bool :=
  if compMatch then Except.ok true
  else
    match descContains n1 desc with
    | Except.error e => Except.error e
    | Except.ok true => Except.ok true
    | Except.ok false => descContains n2 desc

/-- Python dict access self.tiff_info[k] for the 1-based directory dict. -/
def dictGetDir (dirs : List DirInfo) (k : Nat) : Option DirInfo :=
  if 1 ≤ k then dirs[k - 1]? else none

/-- Build the label/macro descriptor dict from a matched candidate: raw
slot values of tags 273 and 279; a missing tag raises KeyError. -/
def buildAux (dirNum : Nat) (d : DirInfo) : Except PyError AuxInfo :=
  match dictGet 273 d.entries with
  | none => Except.error PyError.keyError
  | some e273 =>
    match dictGet 279 d.entries with
    | none => Except.error PyError.keyError
    | some e279 => Except.ok ⟨dirNum, e273.data_offset, e279.data_offset⟩

/-- BigTiffFile._get_label_and_macro_info: the second-to-last directory is
the label candidate (accepted iff its compression decodes to LZW or its
description contains label/Label), the last is the macro candidate
(accepted iff its compression decodes to a JPEG name or its description
contains macro/Macro).  Reading tag 270 is wrapped in try/except and
yields None when absent. -/
def get_label_and_macro_info (dirs : List DirInfo) :
    Except PyError (Option AuxInfo × Option AuxInfo) :=
  let D := dirs.length
  match dictGetDir dirs (D - 1) with
  | none => Except.error PyError.keyError
  | some dl =>
    match dictGet 259 dl.entries with
    | none => Except.error PyError.keyError
    | some cl =>
      let descl := (dictGet 270 dl.entries).map IFDEntry.value
      match roleTest (compressionName cl.data_offset == some "LZW") descl
          needleLabel needleLabelCap with
      | Except.error e => Except.error e
      | Except.ok lok =>
        match (if lok then Except.map some (buildAux (D - 1) dl)
            else Except.ok none) with
        | Except.error e => Except.error e
        | Except.ok lres =>
          match dictGetDir dirs D with
          | none => Except.error PyError.keyError
          | some dm =>
            match dictGet 259 dm.entries with
            | none => Except.error PyError.keyError
            | some cm =>
              let descm := (dictGet 270 dm.entries).map IFDEntry.value
              match roleTest (compressionName cm.data_offset == some "JPEG"
                  || compressionName cm.data_offset == some "JPEG 7") descm
                  needleMac needleMacCap with
              | Except.error e => Except.error e
              | Except.ok mok =>
                match (if mok then Except.map some (buildAux D dm)
                    else Except.ok none) with
                | Except.error e => Except.error e
                | Except.ok mres => Except.ok (lres, mres)

/-- Parsed state of a BigTiffFile opened from a path: the directory chain
and the optional label/macro descriptors. -/
structure TiffState where
  file_path : String
  dirs : List DirInfo
  lblDesc : Option AuxInfo
  macDesc : Option AuxInfo
  deriving Repr, DecidableEq

/-- Substring check for the protected-directory marker. -/
def protectedPath (p : String) : Bool :=
  containsSub p.toList "DigitalPathology".toList

/-- BigTiffFile.__init__ on a file path: header, directory chain, then the
label/macro classification. -/
def bigTiffOpen (path : String) (f : List Nat) (fuel : Nat) :
    Except PyError TiffState :=
  match read_header f with
  | Except.error e => Except.error e
  | Except.ok fo =>
    match read_chain f fuel fo with
    | Except.error e => Except.error e
    | Except.ok dirs =>
      match get_label_and_macro_info dirs with
      | Except.error e => Except.error e
      | Except.ok lm => Except.ok ⟨path, dirs, lm.1, lm.2⟩

/-- BigTiffFile.de_identify_slide: read both descriptors (None gives a
TypeError on subscripting), refuse protected paths with a RuntimeError,
then overwrite both strip ranges with zero bytes in place.  The result is
the new contents of the file on disk. -/
def de_identify_slide (s : TiffState) (f : List Nat) :
    Except PyError (List Nat) :=
  match s.lblDesc with
  | none => Except.error PyError.typeError
  | some l =>
    match s.macDesc with
    | none => Except.error PyError.typeError
    | some m =>
      if protectedPath s.file_path then
        Except.error (PyError.runtimeError
          "Cannot remove labels in provided directory!!")
      else
        Except.ok (writeBytes
          (writeBytes f l.strip_offset (List.replicate l.strip_byte_counts 0))
          m.strip_offset (List.replicate m.strip_byte_counts 0))

/-- BigTiffFile._get_label_data: read strip-byte-count bytes at the label
strip offset (a missing label descriptor gives a TypeError).  A short read
returns the available bytes, as Python file read does. -/
def get_label_data (s : TiffState) (f : List Nat) :
    Except PyError (List Nat) :=
  match s.lblDesc with
  | none => Except.error PyError.typeError
  | some l => Except.ok ((f.drop l.strip_offset).take l.strip_byte_counts)

/-- Entry-patch loop of SubImage.update_ifd: for every entry of the
replacement's first directory whose encoded length exceeds 8 bytes or
whose tag is 273, overwrite the 8-byte value slot at its recorded
pre-data offset with original value + offset_adjustment - 16 (struct.pack
raises on a negative or too-large result). -/
def patchEntries (adj : Nat) :
    List (Nat × IFDEntry) → List Nat → Except PyError (List Nat)
  | [], f => Except.ok f
  | (tg, e) :: rest, f =>
    match typeSize e.ifd_type with
    | none => Except.error PyError.keyError
    | some sz =>
      if 8 < e.ifd_count * sz ∨ tg = 273 then
        if 16 ≤ e.data_offset + adj ∧ e.data_offset + adj - 16 < 2 ^ 64 then
          patchEntries adj rest
            (writeBytes f e.pre_data_offset
              (leEncode 8 (e.data_offset + adj - 16)))
        else Except.error PyError.structError
      else patchEntries adj rest f

/-- SubImage.update_ifd: parse the replacement blob (its own header and
directory chain), patch the external/strip-offset value slots of its first
directory, and for a label replacement also rewrite the trailing
next-directory pointer to current end of the blob + offset_adjustment,
returning that value (None for a macro replacement). -/
def update_ifd (file_type : String) (file : List Nat)
    (offset_adjustment fuel : Nat) :
    Except PyError (List Nat × Option Nat) :=
  match read_header file with
  | Except.error e => Except.error e
  | Except.ok fo =>
    match read_chain file fuel fo with
    | Except.error e => Except.error e
    | Except.ok dirs =>
      match dirs[0]? with
      | none => Except.error PyError.keyError
      | some d1 =>
        match patchEntries offset_adjustment d1.entries file with
        | Except.error e => Except.error e
        | Except.ok f1 =>
          if file_type = "label" then
            if f1.length + offset_adjustment < 2 ^ 64 then
              Except.ok (writeBytes f1 d1.pre_offset_offset
                  (leEncode 8 (f1.length + offset_adjustment)),
                some (f1.length + offset_adjustment))
            else Except.error PyError.structError
          else Except.ok (f1, none)

/-- State assembled by LabelSwitcher.__init__: the slide path, the slide
file contents after the optional de-identification, the label directory
offset used as the label insertion point, the next-IFD offset used as the
macro insertion point, and the two patched replacement images. -/
structure SwitcherState where
  slide_path : String
  slide_file : List Nat
  slide_offset_adjustment : Nat
  next_ifd_offset : Nat
  label_img : List Nat
  mac_img : List Nat
  deriving Repr, DecidableEq

/-- LabelSwitcher.__init__: open and classify the slide, optionally
zero-fill the original label and macro (which refuses protected paths),
take the label directory offset as insertion point, patch the label
replacement (obtaining the macro insertion point from its rewritten next
pointer), then patch the macro replacement with that insertion point.  The
replacement blobs stand for the byte buffers returned by the out-of-scope
image builder. -/
def labelSwitcherInit (slide_path : String) (slideF lblBlob macBlob : List Nat)
    (removeOrig : Bool) (fuel : Nat) : Except PyError SwitcherState :=
  match bigTiffOpen slide_path slideF fuel with
  | Except.error e => Except.error e
  | Except.ok st =>
    match (if removeOrig then de_identify_slide st slideF
        else Except.ok slideF) with
    | Except.error e => Except.error e
    | Except.ok slideF' =>
      match st.lblDesc with
      | none => Except.error PyError.typeError
      | some l =>
        match dictGetDir st.dirs l.directory with
        | none => Except.error PyError.keyError
        | some ld =>
          match update_ifd "label" lblBlob ld.directory_offset fuel with
          | Except.error e => Except.error e
          | Except.ok (lbl', nx) =>
            match nx with
            | none => Except.error PyError.typeError
            | some v =>
              match update_ifd "macro" macBlob v fuel with
              | Except.error e => Except.error e
              | Except.ok (mac', _) =>
                Except.ok ⟨slide_path, slideF', ld.directory_offset, v,
                  lbl', mac'⟩

/-- LabelSwitcher.switch_labels: write the label replacement bytes (its
16-byte header skipped) at the label directory offset, then the macro
replacement bytes (header skipped) at the computed macro insertion point.
No path check is performed here. -/
def switch_labels (s : SwitcherState) : List Nat :=
  writeBytes
    (writeBytes s.slide_file s.slide_offset_adjustment (s.label_img.drop 16))
    s.next_ifd_offset (s.mac_img.drop 16)

/-- Split a character list on a separator character (like str.split with a
one-character separator: n separators give n + 1 groups). -/
def splitOnChar (sep : Char) : List Char → List (List Char)
  | [] => [[]]
  | a :: rest =>
    if a = sep then [] :: splitOnChar sep rest
    else
      match splitOnChar sep rest with
      | [] => [[a]]
      | g :: gs => (a :: g) :: gs

/-- Join character groups with a separator character. -/
def joinChar (sep : Char) : List (List Char) → List Char
  | [] => []
  | [g] => g
  | g :: gs => g ++ sep :: joinChar sep gs

/-- Characters after the last path separator, as pathlib name. -/
def pathName (p : String) : String :=
  String.mk ((splitOnChar '/' p.toList).getLastD [])

/-- Name without its last extension, as pathlib stem (for names of the
usual slide-file shape). -/
def pathStem (p : String) : String :=
  match splitOnChar '.' (pathName p).toList with
  | [] => pathName p
  | [_] => pathName p
  | g :: gs => String.mk (joinChar '.' ((g :: gs).dropLast))

/-- Last extension including the dot, as pathlib suffix (for names of the
usual slide-file shape). -/
def pathSuffix (p : String) : String :=
  match splitOnChar '.' (pathName p).toList with
  | [] => ""
  | [_] => ""
  | g :: gs => String.mk ('.' :: (g :: gs).getLastD [])

/-- Numeric value of a decimal digit string. -/
def digitsVal (cs : List Char) : Nat :=
  cs.foldl (fun acc c => acc * 10 + (c.toNat - 48)) 0

/-- Python int() on a string of an optional minus sign followed by decimal
digits; anything else raises ValueError. -/
def parseIntPy (s : String) : Except PyError Int :=
  match s.toList with
  | [] => Except.error PyError.valueError
  | '-' :: rest =>
    if rest ≠ [] ∧ rest.all Char.isDigit then
      Except.ok (-(Int.ofNat (digitsVal rest)))
    else Except.error PyError.valueError
  | cs =>
    if cs.all Char.isDigit then Except.ok (Int.ofNat (digitsVal cs))
    else Except.error PyError.valueError

/-- First five characters of a string, as the slice s[:5]. -/
def firstFive (s : String) : String :=
  String.mk (s.toList.take 5)

/-- One row of the batch spreadsheet: the slide-location cell and the
optional QR and text cells. -/
structure BatchRecord where
  slide_loc : String
  qr : Option String
  line1 : Option String
  line2 : Option String
  line3 : Option String
  line4 : Option String
  deriving Repr, DecidableEq

/-- Resolution of the slide path in switch_labels_from_file: with a slide
directory, join it with the record's file name (adding the .svs suffix if
missing); otherwise use the recorded location as is. -/
def resolvePath (slide_dir : Option String) (r : BatchRecord) : String :=
  match slide_dir with
  | some d =>
    let nm := if pathSuffix r.slide_loc = ".svs" then pathName r.slide_loc
      else pathName r.slide_loc ++ ".svs"
    d ++ "/" ++ nm
  | none => r.slide_loc

/-- Outcome of one batch record: skipped by the slide-number check,
processed successfully, or failed with the error caught and logged. -/
inductive RecordOutcome where
  | skipped
  | processedOk
  | processedFailed
  deriving Repr, DecidableEq

/-- Body of the batch loop for one record: the protected-path check raises
(outside any try), the slide-number parse raises on failure, a number
below 563 skips the record, and only the LabelSwitcher construction and
label switch are guarded by the try that logs and continues.  The
processing of one slide file is abstracted as the process argument. -/
def processOne (process : String → Except PyError Unit)
    (slide_dir : Option String) (r : BatchRecord) :
    Except PyError RecordOutcome :=
  let sp := resolvePath slide_dir r
  if protectedPath sp then
    Except.error (PyError.runtimeError
      "Cannot remove labels in provided directory!!")
  else
    match parseIntPy (firstFive (pathStem sp)) with
    | Except.error e => Except.error e
    | Except.ok n =>
      if n < 563 then Except.ok RecordOutcome.skipped
      else
        match process sp with
        | Except.ok _ => Except.ok RecordOutcome.processedOk
        | Except.error _ => Except.ok RecordOutcome.processedFailed

/-- switch_labels_from_file iteration: process the records in order; an
error raised outside the per-record try aborts the whole batch. -/
def switch_labels_from_file (process : String → Except PyError Unit)
    (slide_dir : Option String) :
    List BatchRecord → Except PyError (List RecordOutcome)
  | [] => Except.ok []
  | r :: rs =>
    match processOne process slide_dir r with
    | Except.error e => Except.error e
    | Except.ok o =>
      match switch_labels_from_file process slide_dir rs with
      | Except.error e => Except.error e
      | Except.ok os => Except.ok (o :: os)

/-! Concrete example files used by witnesses and counterexamples. -/

/-- A minimal valid slide file: header, one pyramid directory, a label
directory at offset 52 (compression LZW, strip at 204 of 4 bytes) and a
macro directory at offset 128 (compression JPEG, strip at 208 of 4 bytes),
followed by the two 4-byte strips; 212 bytes in total. -/
def exSlide : List Nat :=
  [73, 73, 43, 0, 8, 0, 0, 0, 16, 0, 0, 0, 0, 0, 0, 0] ++
  ([1, 0, 0, 0, 0, 0, 0, 0] ++
    [0, 1, 3, 0, 1, 0, 0, 0, 0, 0, 0, 0, 100, 0, 0, 0, 0, 0, 0, 0] ++
    [52, 0, 0, 0, 0, 0, 0, 0]) ++
  ([3, 0, 0, 0, 0, 0, 0, 0] ++
    [3, 1, 3, 0, 1, 0, 0, 0, 0, 0, 0, 0, 5, 0, 0, 0, 0, 0, 0, 0] ++
    [17, 1, 16, 0, 1, 0, 0, 0, 0, 0, 0, 0, 204, 0, 0, 0, 0, 0, 0, 0] ++
    [23, 1, 16, 0, 1, 0, 0, 0, 0, 0, 0, 0, 4, 0, 0, 0, 0, 0, 0, 0] ++
    [128, 0, 0, 0, 0, 0, 0, 0]) ++
  ([3, 0, 0, 0, 0, 0, 0, 0] ++
    [3, 1, 3, 0, 1, 0, 0, 0, 0, 0, 0, 0, 7, 0, 0, 0, 0, 0, 0, 0] ++
    [17, 1, 16, 0, 1, 0, 0, 0, 0, 0, 0, 0, 208, 0, 0, 0, 0, 0, 0, 0] ++
    [23, 1, 16, 0, 1, 0, 0, 0, 0, 0, 0, 0, 4, 0, 0, 0, 0, 0, 0, 0] ++
    [0, 0, 0, 0, 0, 0, 0, 0]) ++
  [9, 9, 9, 9] ++ [8, 8, 8, 8]

/-- A minimal label replacement blob: header, one directory with a
strip-offset entry (tag 273, raw value 300) and a compression entry, a
zero next pointer and 8 strip bytes; 80 bytes in total. -/
def exLbl : List Nat :=
  [73, 73, 43, 0, 8, 0, 0, 0, 16, 0, 0, 0, 0, 0, 0, 0] ++
  [2, 0, 0, 0, 0, 0, 0, 0] ++
  [17, 1, 16, 0, 1, 0, 0, 0, 0, 0, 0, 0, 44, 1, 0, 0, 0, 0, 0, 0] ++
  [3, 1, 3, 0, 1, 0, 0, 0, 0, 0, 0, 0, 5, 0, 0, 0, 0, 0, 0, 0] ++
  [0, 0, 0, 0, 0, 0, 0, 0] ++
  [7, 7, 7, 7, 7, 7, 7, 7]

/-- A minimal macro replacement blob of the same shape as exLbl, with raw
strip-offset value 400. -/
def exMac : List Nat :=
  [73, 73, 43, 0, 8, 0, 0, 0, 16, 0, 0, 0, 0, 0, 0, 0] ++
  [2, 0, 0, 0, 0, 0, 0, 0] ++
  [17, 1, 16, 0, 1, 0, 0, 0, 0, 0, 0, 0, 144, 1, 0, 0, 0, 0, 0, 0] ++
  [3, 1, 3, 0, 1, 0, 0, 0, 0, 0, 0, 0, 7, 0, 0, 0, 0, 0, 0, 0] ++
  [0, 0, 0, 0, 0, 0, 0, 0] ++
  [6, 6, 6, 6, 6, 6, 6, 6]

/-- A directory image starting at offset 0 whose two entry records carry
the same tag number 256 (values 10 and 20), then a zero next pointer. -/
def exDup : List Nat :=
  [2, 0, 0, 0, 0, 0, 0, 0] ++
  [0, 1, 3, 0, 1, 0, 0, 0, 0, 0, 0, 0, 10, 0, 0, 0, 0, 0, 0, 0] ++
  [0, 1, 3, 0, 1, 0, 0, 0, 0, 0, 0, 0, 20, 0, 0, 0, 0, 0, 0, 0] ++
  [0, 0, 0, 0, 0, 0, 0, 0]

/-- A 32-byte file whose bytes at offset 16 hold two 8-byte integers 5 and
6, i.e. a perfectly readable pointer target for an oversized tag value. -/
def exF6 : List Nat :=
  List.replicate 16 0 ++
  [5, 0, 0, 0, 0, 0, 0, 0] ++ [6, 0, 0, 0, 0, 0, 0, 0]

/-- Directories whose label candidate carries compression code 1 (not
LZW) and no image-description tag 270: the failing input of claim C3. -/
def exDirsNoDesc : List DirInfo :=
  [⟨[(259, ⟨60, 3, 1, 72, 1, IFDValue.ints [1]⟩),
     (273, ⟨80, 16, 1, 92, 204, IFDValue.ints [204]⟩),
     (279, ⟨100, 16, 1, 112, 4, IFDValue.ints [4]⟩)], 52, 120, 128⟩,
   ⟨[(259, ⟨136, 3, 1, 148, 7, IFDValue.ints [7]⟩),
     (273, ⟨156, 16, 1, 168, 208, IFDValue.ints [208]⟩),
     (279, ⟨176, 16, 1, 188, 4, IFDValue.ints [4]⟩)], 128, 196, 0⟩]

/-! Projection helpers used to state theorems about Except-valued runs. -/

/-- Boolean success test for an Except value. -/
def isOkE {α : Type} (x : Except PyError α) : Bool :=
  match x with
  | Except.ok _ => true
  | Except.error _ => false

/-- Patched bytes of an update_ifd result (empty list on error). -/
def patchedOf (x : Except PyError (List Nat × Option Nat)) : List Nat :=
  match x with
  | Except.ok pr => pr.1
  | Except.error _ => []

/-- State of a LabelSwitcher construction (junk state on error). -/
def stateOf (x : Except PyError SwitcherState) : SwitcherState :=
  match x with
  | Except.ok s => s
  | Except.error _ => ⟨"", [], 0, 0, [], []⟩

/-- State of a BigTiffFile open (junk state on error). -/
def tiffStateOf (x : Except PyError TiffState) : TiffState :=
  match x with
  | Except.ok s => s
  | Except.error _ => ⟨"", [], none, none⟩

/-- File bytes of a successful byte-returning operation (empty on error). -/
def okBytes (x : Except PyError (List Nat)) : List Nat :=
  match x with
  | Except.ok f => f
  | Except.error _ => []

/-- Entry dict of a successful read_IFDs (empty on error). -/
def dirEntriesOf (x : Except PyError DirInfo) : List (Nat × IFDEntry) :=
  match x with
  | Except.ok d => d.entries
  | Except.error _ => []

/-- Outcome of the guarded processing attempt for one slide path. -/
def procResult (process : String → Except PyError Unit) (p : String) :
    RecordOutcome :=
  match process p with
  | Except.ok _ => RecordOutcome.processedOk
  | Except.error _ => RecordOutcome.processedFailed

/-- Outcome of one batch record when the unguarded checks do not raise:
skip below slide number 563, otherwise the guarded processing outcome. -/
def recordOutcome (process : String → Except PyError Unit)
    (slide_dir : Option String) (r : BatchRecord) : RecordOutcome :=
  match parseIntPy (firstFive (pathStem (resolvePath slide_dir r))) with
  | Except.error _ => RecordOutcome.skipped
  | Except.ok n =>
    if n < 563 then RecordOutcome.skipped
    else procResult process (resolvePath slide_dir r)

/-- Parsed single directory of the exLbl replacement blob. -/
def exLblDir : DirInfo :=
  ⟨[(273, ⟨24, 16, 1, 36, 300, IFDValue.ints [300]⟩),
    (259, ⟨44, 3, 1, 56, 5, IFDValue.ints [5]⟩)], 16, 64, 0⟩

/-- Parsed label directory of exSlide (at offset 52). -/
def exSlideLblDir : DirInfo :=
  ⟨[(259, ⟨60, 3, 1, 72, 5, IFDValue.ints [5]⟩),
    (273, ⟨80, 16, 1, 92, 204, IFDValue.ints [204]⟩),
    (279, ⟨100, 16, 1, 112, 4, IFDValue.ints [4]⟩)], 52, 120, 128⟩

/-- Raw (pre-dict) entry records of the exSlide label directory; its tags
are pairwise distinct, so the dict keeps all of them in file order. -/
def exSlideLblRaw : List (Nat × IFDEntry) :=
  [(259, ⟨60, 3, 1, 72, 5, IFDValue.ints [5]⟩),
   (273, ⟨80, 16, 1, 92, 204, IFDValue.ints [204]⟩),
   (279, ⟨100, 16, 1, 112, 4, IFDValue.ints [4]⟩)]

/-- Batch record pointing into a protected directory. -/
def recProt : BatchRecord :=
  ⟨"/archive/DigitalPathology/00700_a.svs", none, none, none, none, none⟩

/-- Batch record with a slide number above the cutoff. -/
def recGood : BatchRecord :=
  ⟨"/archive/slides/00700_b.svs", none, none, none, none, none⟩

/-- Batch record with a slide number below the cutoff. -/
def recSkip : BatchRecord :=
  ⟨"/archive/slides/00560_c.svs", none, none, none, none, none⟩

/-- Batch record whose processing fails. -/
def recFail : BatchRecord :=
  ⟨"/archive/slides/00800_d.svs", none, none, none, none, none⟩

/-- Batch record that is both protected and below the cutoff. -/
def recProtLow : BatchRecord :=
  ⟨"/archive/DigitalPathology/00100_e.svs", none, none, none, none, none⟩

/-- Per-slide processing that always succeeds. -/
def procOk : String → Except PyError Unit := fun _ => Except.ok ()

/-- Per-slide processing that fails exactly on the recFail slide. -/
def procSel : String → Except PyError Unit := fun p =>
  if p = "/archive/slides/00800_d.svs" then Except.error (PyError.exc "bad file")
  else Except.ok ()

/-- Parsed state with label and macro descriptors unset. -/
def cexSt4 : TiffState := ⟨"/archive/slides/00700_b.svs", [], none, none⟩

/-- Two 9-byte files that agree on their first 8 bytes. -/
def inline8A : List Nat := [1, 0, 2, 0, 3, 0, 4, 0, 99]

def inline8B : List Nat := [1, 0, 2, 0, 3, 0, 4, 0, 77]

/-- Decidable equality for Except values, used to evaluate concrete runs. -/
instance instDecEqExceptPy {e a : Type} [DecidableEq e] [DecidableEq a] :
    DecidableEq (Except e a) := fun x y =>
  match x, y with
  | Except.ok u, Except.ok v =>
    if h : u = v then Decidable.isTrue (by rw [h])
    else Decidable.isFalse (fun hEq => h (Except.ok.inj hEq))
  | Except.error u, Except.error v =>
    if h : u = v then Decidable.isTrue (by rw [h])
    else Decidable.isFalse (fun hEq => h (Except.error.inj hEq))
  | Except.ok _, Except.error _ =>
    Decidable.isFalse (fun hEq => Except.noConfusion hEq)
  | Except.error _, Except.ok _ =>
    Decidable.isFalse (fun hEq => Except.noConfusion hEq)

/-! Lemmas about the byte-level primitives. -/

theorem leEncode_length (w v : Nat) : (leEncode w v).length = w := by
  induction w generalizing v with
  | zero => rfl
  | succ n ih => simp [leEncode, ih]

theorem writeBytes_eq_of_le {f d : List Nat} {off : Nat}
    (h : off + d.length ≤ f.length) :
    writeBytes f off d = f.take off ++ d ++ f.drop (off + d.length) := by
  unfold writeBytes
  have h0 : off - f.length = 0 := by omega
  simp [h0]

theorem writeBytes_length {f d : List Nat} {off : Nat}
    (h : off + d.length ≤ f.length) :
    (writeBytes f off d).length = f.length := by
  rw [writeBytes_eq_of_le h]
  simp only [List.length_append, List.length_take, List.length_drop]
  omega

theorem length_take_of_le {f : List Nat} {off : Nat} (h : off ≤ f.length) :
    (f.take off).length = off := by
  rw [List.length_take]
  omega

theorem writeBytes_getElem?_lt {f d : List Nat} {off i : Nat}
    (h : off + d.length ≤ f.length) (hi : i < off) :
    (writeBytes f off d)[i]? = f[i]? := by
  rw [writeBytes_eq_of_le h, List.append_assoc, List.getElem?_append,
    length_take_of_le (by omega : off ≤ f.length), if_pos hi,
    List.getElem?_take, if_pos hi]

theorem writeBytes_getElem?_mid {f d : List Nat} {off i : Nat}
    (h : off + d.length ≤ f.length) (h1 : off ≤ i) (h2 : i < off + d.length) :
    (writeBytes f off d)[i]? = d[i - off]? := by
  rw [writeBytes_eq_of_le h, List.append_assoc, List.getElem?_append,
    length_take_of_le (by omega : off ≤ f.length), if_neg (by omega),
    List.getElem?_append, if_pos (by omega)]

theorem writeBytes_getElem?_ge {f d : List Nat} {off i : Nat}
    (h : off + d.length ≤ f.length) (hi : off + d.length ≤ i) :
    (writeBytes f off d)[i]? = f[i]? := by
  rw [writeBytes_eq_of_le h, List.append_assoc, List.getElem?_append,
    length_take_of_le (by omega : off ≤ f.length), if_neg (by omega),
    List.getElem?_append, if_neg (by omega), List.getElem?_drop]
  congr 1
  omega

theorem readBytes_ext {f g : List Nat} {a n : Nat} (hlen : g.length = f.length)
    (hag : ∀ i, a ≤ i → i < a + n → g[i]? = f[i]?) :
    readBytes g a n = readBytes f a n := by
  unfold readBytes
  rw [hlen]
  by_cases hc : a + n ≤ f.length
  · rw [if_pos hc, if_pos hc]
    congr 1
    apply List.ext_getElem?
    intro j
    rw [List.getElem?_take, List.getElem?_take]
    by_cases hj : j < n
    · rw [if_pos hj, if_pos hj, List.getElem?_drop, List.getElem?_drop]
      exact hag (a + j) (by omega) (by omega)
    · rw [if_neg hj, if_neg hj]
  · rw [if_neg hc, if_neg hc]

theorem readBytes_writeBytes_self {f d : List Nat} {off : Nat}
    (h : off + d.length ≤ f.length) :
    readBytes (writeBytes f off d) off d.length = some d := by
  unfold readBytes
  rw [writeBytes_length h, if_pos h, writeBytes_eq_of_le h, List.append_assoc,
    List.drop_left' (length_take_of_le (by omega : off ≤ f.length)),
    List.take_left]

theorem readBytes_writeBytes_outside {f d : List Nat} {off a n : Nat}
    (h : off + d.length ≤ f.length)
    (hsep : a + n ≤ off ∨ off + d.length ≤ a) :
    readBytes (writeBytes f off d) a n = readBytes f a n := by
  apply readBytes_ext (writeBytes_length h)
  intro i h1 h2
  rcases hsep with hs | hs
  · exact writeBytes_getElem?_lt h (by omega)
  · exact writeBytes_getElem?_ge h (by omega)

theorem readU_some_le {f : List Nat} {o w x : Nat} (h : readU f o w = some x) :
    o + w ≤ f.length := by
  unfold readU readBytes at h
  by_cases hc : o + w ≤ f.length
  · exact hc
  · rw [if_neg hc] at h
    cases h

/-! Lemmas about the entry-patch loop. -/

theorem patchEntries_length {adj : Nat} :
    ∀ {l : List (Nat × IFDEntry)} {f f' : List Nat},
    patchEntries adj l f = Except.ok f' →
    (∀ p ∈ l, p.2.pre_data_offset + 8 ≤ f.length) →
    f'.length = f.length := by
  intro l
  induction l with
  | nil =>
    intro f f' h _
    simp only [patchEntries, Except.ok.injEq] at h
    rw [← h]
  | cons p rest ih =>
    intro f f' h hw
    obtain ⟨tg, e⟩ := p
    cases hts : typeSize e.ifd_type with
    | none =>
      simp only [patchEntries, hts] at h
      cases h
    | some sz =>
      simp only [patchEntries, hts] at h
      by_cases hc : 8 < e.ifd_count * sz ∨ tg = 273
      · rw [if_pos hc] at h
        by_cases hb : 16 ≤ e.data_offset + adj ∧ e.data_offset + adj - 16 < 2 ^ 64
        · rw [if_pos hb] at h
          have hw0 : e.pre_data_offset + 8 ≤ f.length := hw (tg, e) (by simp)
          have hwl : (writeBytes f e.pre_data_offset
              (leEncode 8 (e.data_offset + adj - 16))).length = f.length := by
            apply writeBytes_length
            rw [leEncode_length]
            omega
          have := ih h (fun q hq => by
            rw [hwl]
            exact hw q (List.mem_cons_of_mem _ hq))
          omega
        · rw [if_neg hb] at h
          cases h
      · rw [if_neg hc] at h
        exact ih h (fun q hq => hw q (List.mem_cons_of_mem _ hq))

theorem patchEntries_frame {adj : Nat} :
    ∀ {l : List (Nat × IFDEntry)} {f f' : List Nat},
    patchEntries adj l f = Except.ok f' →
    (∀ p ∈ l, p.2.pre_data_offset + 8 ≤ f.length) →
    ∀ i, (∀ p ∈ l, i < p.2.pre_data_offset ∨ p.2.pre_data_offset + 8 ≤ i) →
    f'[i]? = f[i]? := by
  intro l
  induction l with
  | nil =>
    intro f f' h _ i _
    simp only [patchEntries, Except.ok.injEq] at h
    rw [← h]
  | cons p rest ih =>
    intro f f' h hw i hout
    obtain ⟨tg, e⟩ := p
    cases hts : typeSize e.ifd_type with
    | none =>
      simp only [patchEntries, hts] at h
      cases h
    | some sz =>
      simp only [patchEntries, hts] at h
      by_cases hc : 8 < e.ifd_count * sz ∨ tg = 273
      · rw [if_pos hc] at h
        by_cases hb : 16 ≤ e.data_offset + adj ∧ e.data_offset + adj - 16 < 2 ^ 64
        · rw [if_pos hb] at h
          have hw0 : e.pre_data_offset + 8 ≤ f.length := hw (tg, e) (by simp)
          have henc : (leEncode 8 (e.data_offset + adj - 16)).length = 8 :=
            leEncode_length 8 _
          have hwb : e.pre_data_offset +
              (leEncode 8 (e.data_offset + adj - 16)).length ≤ f.length := by
            rw [henc]; omega
          have hwl := writeBytes_length hwb
          have h1 := ih h (fun q hq => by
            rw [hwl]
            exact hw q (List.mem_cons_of_mem _ hq)) i
            (fun q hq => hout q (List.mem_cons_of_mem _ hq))
          rw [h1]
          have hout0 : i < e.pre_data_offset ∨ e.pre_data_offset + 8 ≤ i :=
            hout (tg, e) (by simp)
          rcases hout0 with hs | hs
          · exact writeBytes_getElem?_lt hwb hs
          · refine writeBytes_getElem?_ge hwb ?_
            rw [henc]
            exact hs
        · rw [if_neg hb] at h
          cases h
      · rw [if_neg hc] at h
        exact ih h (fun q hq => hw q (List.mem_cons_of_mem _ hq)) i
          (fun q hq => hout q (List.mem_cons_of_mem _ hq))

theorem patchEntries_slot {adj : Nat} :
    ∀ {l : List (Nat × IFDEntry)} {f f' : List Nat},
    patchEntries adj l f = Except.ok f' →
    (∀ p ∈ l, p.2.pre_data_offset + 8 ≤ f.length) →
    (∀ p ∈ l, ∀ q ∈ l, p ≠ q →
      p.2.pre_data_offset + 8 ≤ q.2.pre_data_offset ∨
      q.2.pre_data_offset + 8 ≤ p.2.pre_data_offset) →
    ∀ tg e sz, (tg, e) ∈ l → typeSize e.ifd_type = some sz →
    ((8 < e.ifd_count * sz ∨ tg = 273 →
        readBytes f' e.pre_data_offset 8 =
          some (leEncode 8 (e.data_offset + adj - 16))) ∧
     (¬(8 < e.ifd_count * sz ∨ tg = 273) →
        readBytes f' e.pre_data_offset 8 = readBytes f e.pre_data_offset 8)) := by
  intro l
  induction l with
  | nil =>
    intro f f' _ _ _ tg e sz hmem _
    cases hmem
  | cons p rest ih =>
    intro f f' h hw hdisj tg e sz hmem hsz
    obtain ⟨tg0, e0⟩ := p
    cases hts : typeSize e0.ifd_type with
    | none =>
      simp only [patchEntries, hts] at h
      cases h
    | some sz0 =>
      simp only [patchEntries, hts] at h
      -- the file after the head step
      by_cases hc0 : 8 < e0.ifd_count * sz0 ∨ tg0 = 273
      · rw [if_pos hc0] at h
        by_cases hb0 : 16 ≤ e0.data_offset + adj ∧ e0.data_offset + adj - 16 < 2 ^ 64
        · rw [if_pos hb0] at h
          have hw0 : e0.pre_data_offset + 8 ≤ f.length := hw (tg0, e0) (by simp)
          have henc : (leEncode 8 (e0.data_offset + adj - 16)).length = 8 :=
            leEncode_length 8 _
          have hwb : e0.pre_data_offset +
              (leEncode 8 (e0.data_offset + adj - 16)).length ≤ f.length := by
            rw [henc]; omega
          have hwl := writeBytes_length hwb
          have hwrest : ∀ q ∈ rest, q.2.pre_data_offset + 8 ≤
              (writeBytes f e0.pre_data_offset
                (leEncode 8 (e0.data_offset + adj - 16))).length := by
            intro q hq
            rw [hwl]
            exact hw q (List.mem_cons_of_mem _ hq)
          have hdrest : ∀ p ∈ rest, ∀ q ∈ rest, p ≠ q →
              p.2.pre_data_offset + 8 ≤ q.2.pre_data_offset ∨
              q.2.pre_data_offset + 8 ≤ p.2.pre_data_offset := by
            intro p hp q hq hne
            exact hdisj p (List.mem_cons_of_mem _ hp) q
              (List.mem_cons_of_mem _ hq) hne
          by_cases hr : (tg, e) ∈ rest
          · -- settled by the recursive call on the tail
            have hres := ih h hwrest hdrest tg e sz hr hsz
            refine ⟨hres.1, ?_⟩
            intro hnc
            rw [hres.2 hnc]
            -- the head pair differs from (tg, e): its condition holds,
            -- the one of (tg, e) does not
            have hne : (tg0, e0) ≠ (tg, e) := by
              intro hEq
              apply hnc
              have h1 : tg0 = tg := congrArg Prod.fst hEq
              have h2 : e0 = e := congrArg Prod.snd hEq
              rw [h1, h2] at hc0
              rw [h2] at hts
              rw [hts] at hsz
              cases hsz
              exact hc0
            have hsep : e0.pre_data_offset + 8 ≤ e.pre_data_offset ∨
                e.pre_data_offset + 8 ≤ e0.pre_data_offset :=
              hdisj (tg0, e0) (by simp) (tg, e) (by simp [hr]) hne
            apply readBytes_writeBytes_outside hwb
            rw [henc]
            omega
          · -- the sought entry is the head, and occurs nowhere in the tail
            have hhd : (tg, e) = (tg0, e0) := by
              rcases List.mem_cons.mp hmem with hEq | hIn
              · exact hEq
              · exact absurd hIn hr
            have htg : tg = tg0 := congrArg Prod.fst hhd
            have hee : e = e0 := congrArg Prod.snd hhd
            subst htg
            subst hee
            rw [hts] at hsz
            cases hsz
            constructor
            · intro _
              -- read back the written slot through the untouched tail
              have hpt : ∀ i, e.pre_data_offset ≤ i → i < e.pre_data_offset + 8 →
                  f'[i]? = (writeBytes f e.pre_data_offset
                    (leEncode 8 (e.data_offset + adj - 16)))[i]? := by
                intro i h1 h2
                apply patchEntries_frame h hwrest
                intro q hq
                have hneq : (tg, e) ≠ q := fun hEq => hr (hEq ▸ hq)
                have hsep : e.pre_data_offset + 8 ≤ q.2.pre_data_offset ∨
                    q.2.pre_data_offset + 8 ≤ e.pre_data_offset :=
                  hdisj (tg, e) (by simp) q (List.mem_cons_of_mem _ hq) hneq
                omega
              have hrd : readBytes f' e.pre_data_offset 8 =
                  readBytes (writeBytes f e.pre_data_offset
                    (leEncode 8 (e.data_offset + adj - 16)))
                    e.pre_data_offset 8 := by
                apply readBytes_ext
                · rw [patchEntries_length h hwrest, hwl]
                · exact hpt
              rw [hrd]
              have := readBytes_writeBytes_self hwb
              rw [henc] at this
              exact this
            · intro hnc
              exact absurd hc0 hnc
        · rw [if_neg hb0] at h
          cases h
      · rw [if_neg hc0] at h
        by_cases hr : (tg, e) ∈ rest
        · exact ih h (fun q hq => hw q (List.mem_cons_of_mem _ hq))
            (fun p hp q hq hne => hdisj p (List.mem_cons_of_mem _ hp) q
              (List.mem_cons_of_mem _ hq) hne) tg e sz hr hsz
        · have hhd : (tg, e) = (tg0, e0) := by
            rcases List.mem_cons.mp hmem with hEq | hIn
            · exact hEq
            · exact absurd hIn hr
          have htg : tg = tg0 := congrArg Prod.fst hhd
          have hee : e = e0 := congrArg Prod.snd hhd
          subst htg
          subst hee
          rw [hts] at hsz
          cases hsz
          constructor
          · intro hc
            exact absurd hc hc0
          · intro _
            apply readBytes_ext
            · exact patchEntries_length h
                (fun q hq => hw q (List.mem_cons_of_mem _ hq))
            · intro i h1 h2
              apply patchEntries_frame h
                (fun q hq => hw q (List.mem_cons_of_mem _ hq))
              intro q hq
              have hneq : (tg, e) ≠ q := fun hEq => hr (hEq ▸ hq)
              have hsep : e.pre_data_offset + 8 ≤ q.2.pre_data_offset ∨
                  q.2.pre_data_offset + 8 ≤ e.pre_data_offset :=
                hdisj (tg, e) (by simp) q (List.mem_cons_of_mem _ hq) hneq
              omega

/-! Lemmas about the directory reader. -/

theorem readEntries_spec {f : List Nat} :
    ∀ {n off : Nat} {raw : List (Nat × IFDEntry)},
    readEntries f off n = Except.ok raw →
    raw.length = n ∧ ∀ i, ∀ hi : i < raw.length,
      (raw.get ⟨i, hi⟩).2.pre_tag_offset = off + 20 * i ∧
      (raw.get ⟨i, hi⟩).2.pre_data_offset = off + 20 * i + 12 ∧
      off + 20 * i + 20 ≤ f.length := by
  intro n
  induction n with
  | zero =>
    intro off raw h
    simp only [readEntries, Except.ok.injEq] at h
    subst h
    exact ⟨rfl, fun i hi => absurd hi (by simp)⟩
  | succ n ih =>
    intro off raw h
    simp only [readEntries] at h
    split at h
    · rename_i tg typ cnt doff h1 h2 h3 h4
      split at h
      · cases h
      · rename_i v h5
        split at h
        · cases h
        · rename_i rest h6
          cases h
          obtain ⟨hlen, hprop⟩ := ih h6
          refine ⟨by simp [hlen], ?_⟩
          intro i hi
          cases i with
          | zero =>
            refine ⟨by simp, by simp, ?_⟩
            have := readU_some_le h4
            omega
          | succ j =>
            have hj : j < rest.length := by
              simp only [List.length_cons] at hi
              omega
            have hstep := hprop j hj
            have hget : ((tg, (⟨off, typ, cnt, off + 12, doff, v⟩ :
                IFDEntry)) :: rest).get ⟨j + 1, hi⟩ = rest.get ⟨j, hj⟩ := rfl
            rw [hget]
            refine ⟨?_, ?_, ?_⟩
            · rw [hstep.1]; ring
            · rw [hstep.2.1]; ring
            · have := hstep.2.2; omega
    · cases h

theorem dictInsert_mem {q : Nat × IFDEntry} {k : Nat} {v : IFDEntry} :
    ∀ {d : List (Nat × IFDEntry)}, q ∈ dictInsert k v d → q = (k, v) ∨ q ∈ d := by
  intro d
  induction d with
  | nil =>
    intro h
    simp only [dictInsert] at h
    exact Or.inl (List.mem_singleton.mp h)
  | cons p rest ih =>
    obtain ⟨k', v'⟩ := p
    intro h
    simp only [dictInsert] at h
    by_cases hk : k' = k
    · rw [if_pos hk] at h
      rcases List.mem_cons.mp h with hEq | hIn
      · exact Or.inl hEq
      · exact Or.inr (List.mem_cons_of_mem _ hIn)
    · rw [if_neg hk] at h
      rcases List.mem_cons.mp h with hEq | hIn
      · exact Or.inr (hEq ▸ List.mem_cons_self _ _)
      · rcases ih hIn with h1 | h2
        · exact Or.inl h1
        · exact Or.inr (List.mem_cons_of_mem _ h2)

theorem dictFold_mem {q : Nat × IFDEntry} :
    ∀ {raw acc : List (Nat × IFDEntry)},
    q ∈ List.foldl (fun d p => dictInsert p.1 p.2 d) acc raw →
    q ∈ acc ∨ q ∈ raw := by
  intro raw
  induction raw with
  | nil => intro acc h; exact Or.inl h
  | cons p rest ih =>
    intro acc h
    simp only [List.foldl_cons] at h
    rcases ih h with h1 | h2
    · rcases dictInsert_mem h1 with hEq | hIn
      · exact Or.inr (by rw [hEq]; exact List.mem_cons_self _ _)
      · exact Or.inl hIn
    · exact Or.inr (List.mem_cons_of_mem _ h2)

theorem dictOfList_subset {q : Nat × IFDEntry} {raw : List (Nat × IFDEntry)}
    (h : q ∈ dictOfList raw) : q ∈ raw := by
  rcases dictFold_mem h with h1 | h2
  · cases h1
  · exact h2

theorem dictInsert_not_mem {k : Nat} {v : IFDEntry} :
    ∀ {d : List (Nat × IFDEntry)}, k ∉ d.map Prod.fst →
    dictInsert k v d = d ++ [(k, v)] := by
  intro d
  induction d with
  | nil => intro _; rfl
  | cons p rest ih =>
    obtain ⟨k', v'⟩ := p
    intro hk
    simp only [List.map_cons, List.mem_cons] at hk
    push_neg at hk
    simp only [dictInsert]
    rw [if_neg (fun h => hk.1 h.symm)]
    rw [ih hk.2]
    rfl

theorem dictFold_nodup :
    ∀ {raw acc : List (Nat × IFDEntry)},
    (raw.map Prod.fst).Nodup →
    (∀ k ∈ raw.map Prod.fst, k ∉ acc.map Prod.fst) →
    List.foldl (fun d p => dictInsert p.1 p.2 d) acc raw = acc ++ raw := by
  intro raw
  induction raw with
  | nil => intro acc _ _; simp
  | cons p rest ih =>
    obtain ⟨k, v⟩ := p
    intro acc hnd hdisj
    simp only [List.foldl_cons]
    have hk : k ∉ acc.map Prod.fst := hdisj k (by simp)
    rw [dictInsert_not_mem hk]
    have hhead : k ∉ rest.map Prod.fst := by
      simp only [List.map_cons, List.nodup_cons] at hnd
      exact hnd.1
    have hnd' : (rest.map Prod.fst).Nodup := by
      simp only [List.map_cons, List.nodup_cons] at hnd
      exact hnd.2
    have hdisj' : ∀ k' ∈ rest.map Prod.fst,
        k' ∉ (acc ++ [(k, v)]).map Prod.fst := by
      intro k' hk'
      simp only [List.map_append, List.mem_append]
      push_neg
      refine ⟨hdisj k' (by simp [hk']), ?_⟩
      simp only [List.map_cons, List.map_nil, List.mem_singleton]
      intro hEq
      exact hhead (hEq ▸ hk')
    rw [ih hnd' hdisj']
    simp

theorem dictOfList_nodup {raw : List (Nat × IFDEntry)}
    (h : (raw.map Prod.fst).Nodup) : dictOfList raw = raw := by
  unfold dictOfList
  have := @dictFold_nodup raw [] h (by simp)
  simpa using this

theorem read_IFDs_inv {f : List Nat} {off : Nat} {d : DirInfo}
    (hd : read_IFDs f off = Except.ok d) :
    ∃ n raw, readU f off 8 = some n ∧
      readEntries f (off + 8) n = Except.ok raw ∧
      readU f (off + 8 + 20 * n) 8 = some d.next_ifd_offset ∧
      d.entries = dictOfList raw ∧ d.directory_offset = off ∧
      d.pre_offset_offset = off + 8 + 20 * n := by
  unfold read_IFDs at hd
  split at hd
  · cases hd
  · rename_i n h1
    split at hd
    · cases hd
    · rename_i raw h2
      split at hd
      · cases hd
      · rename_i nxt h3
        cases hd
        exact ⟨n, raw, h1, h2, h3, rfl, rfl, rfl⟩

theorem read_chain_zero (f : List Nat) (fuel : Nat) :
    read_chain f fuel 0 = Except.ok [] := by
  cases fuel <;> simp [read_chain]

theorem read_chain_one {f : List Nat} {fo fuel : Nat} {d1 : DirInfo}
    (hfo : fo ≠ 0) (hd : read_IFDs f fo = Except.ok d1)
    (hnx : d1.next_ifd_offset = 0) (hfuel : 1 ≤ fuel) :
    read_chain f fuel fo = Except.ok [d1] := by
  cases fuel with
  | zero => omega
  | succ k =>
    simp only [read_chain, if_neg hfo, hd, hnx, read_chain_zero]

theorem update_ifd_snd_eq_none {ft : String} {file : List Nat}
    {adj fuel : Nat} {pr : List Nat × Option Nat}
    (h : update_ifd ft file adj fuel = Except.ok pr) (hft : ft ≠ "label") :
    pr.2 = none := by
  unfold update_ifd at h
  split at h
  · cases h
  · rename_i fo h1
    split at h
    · cases h
    · rename_i dirs h2
      split at h
      · cases h
      · rename_i d1 h3
        split at h
        · cases h
        · rename_i f1 h4
          rw [if_neg hft] at h
          cases h
          rfl

/-! Claim theorems. -/

/-- C1: for every tag entry of a standalone replacement blob's single
directory whose encoded length (count times the type's byte size) exceeds
8 bytes, or whose tag number is 273, patching with insertion point P
overwrites the entry's 8-byte value slot at its recorded pre-value offset
with original value + P - 16, and the value slots of all other entries are
left unchanged. -/
theorem C1_offset_patcher_slots
    (ft : String) (blob : List Nat) (P fuel fo : Nat) (d1 : DirInfo)
    (tg : Nat) (e : IFDEntry) (sz : Nat)
    (hh : read_header blob = Except.ok fo)
    (hfo : fo ≠ 0) (hfuel : 1 ≤ fuel)
    (hd : read_IFDs blob fo = Except.ok d1)
    (hnx : d1.next_ifd_offset = 0)
    (hok : isOkE (update_ifd ft blob P fuel) = true)
    (hmem : (tg, e) ∈ d1.entries)
    (hsz : typeSize e.ifd_type = some sz) :
    (8 < e.ifd_count * sz ∨ tg = 273 →
      readBytes (patchedOf (update_ifd ft blob P fuel)) e.pre_data_offset 8 =
        some (leEncode 8 (e.data_offset + P - 16))) ∧
    (¬(8 < e.ifd_count * sz ∨ tg = 273) →
      readBytes (patchedOf (update_ifd ft blob P fuel)) e.pre_data_offset 8 =
        readBytes blob e.pre_data_offset 8) := by
  obtain ⟨n, raw, hn, hraw, hnext, hent, hdo, hpo⟩ := read_IFDs_inv hd
  have hchain := read_chain_one hfo hd hnx hfuel
  obtain ⟨hrawlen, hrawi⟩ := readEntries_spec hraw
  have hpos : ∀ p : Nat × IFDEntry, p ∈ d1.entries → ∃ i, ∃ hi : i < raw.length,
      raw.get ⟨i, hi⟩ = p := by
    intro p hp
    have hpr : p ∈ raw := by
      rw [hent] at hp
      exact dictOfList_subset hp
    obtain ⟨⟨i, hi⟩, hgi⟩ := List.mem_iff_get.mp hpr
    exact ⟨i, hi, hgi⟩
  have hwf : ∀ p ∈ d1.entries, p.2.pre_data_offset + 8 ≤ blob.length := by
    intro p hp
    obtain ⟨i, hi, hgi⟩ := hpos p hp
    have h1 := (hrawi i hi).2.1
    have h2 := (hrawi i hi).2.2
    rw [hgi] at h1
    omega
  have hdisj : ∀ p ∈ d1.entries, ∀ q ∈ d1.entries, p ≠ q →
      p.2.pre_data_offset + 8 ≤ q.2.pre_data_offset ∨
      q.2.pre_data_offset + 8 ≤ p.2.pre_data_offset := by
    intro p hp q hq hne
    obtain ⟨i, hi, hgi⟩ := hpos p hp
    obtain ⟨j, hj, hgj⟩ := hpos q hq
    have hij : i ≠ j := by
      intro hEq
      apply hne
      subst hEq
      rw [← hgi, ← hgj]
    have hpi := (hrawi i hi).2.1
    rw [hgi] at hpi
    have hqj := (hrawi j hj).2.1
    rw [hgj] at hqj
    omega
  -- position of the entry e itself, for separation from the next pointer
  obtain ⟨ie, hie, hge⟩ := hpos (tg, e) hmem
  have hepre : e.pre_data_offset = fo + 8 + 20 * ie + 12 := by
    have := (hrawi ie hie).2.1
    rw [hge] at this
    exact this
  have hie_n : ie < n := by
    rw [hrawlen] at hie
    exact hie
  have hpo8 : d1.pre_offset_offset + 8 ≤ blob.length := by
    have := readU_some_le hnext
    omega
  cases hpe : patchEntries P d1.entries blob with
  | error e0 =>
    have hupd : update_ifd ft blob P fuel = Except.error e0 := by
      simp only [update_ifd, hh, hchain, List.getElem?_cons_zero, hpe]
    rw [hupd] at hok
    simp [isOkE] at hok
  | ok f1 =>
    have hlen1 : f1.length = blob.length := patchEntries_length hpe hwf
    have hslot := patchEntries_slot hpe hwf hdisj tg e sz hmem hsz
    have hread : readBytes (patchedOf (update_ifd ft blob P fuel))
        e.pre_data_offset 8 = readBytes f1 e.pre_data_offset 8 := by
      by_cases hft : ft = "label"
      · by_cases hv : f1.length + P < 2 ^ 64
        · have hupd : update_ifd ft blob P fuel = Except.ok
              (writeBytes f1 d1.pre_offset_offset (leEncode 8 (f1.length + P)),
               some (f1.length + P)) := by
            simp only [update_ifd, hh, hchain, List.getElem?_cons_zero, hpe,
              hft, hv, if_true]
          rw [hupd]
          simp only [patchedOf]
          apply readBytes_writeBytes_outside
          · rw [leEncode_length]
            omega
          · left
            omega
        · have hupd : update_ifd ft blob P fuel =
              Except.error PyError.structError := by
            simp only [update_ifd, hh, hchain, List.getElem?_cons_zero, hpe,
              hft, hv, if_true, if_false]
          rw [hupd] at hok
          simp [isOkE] at hok
      · have hupd : update_ifd ft blob P fuel = Except.ok (f1, none) := by
          simp only [update_ifd, hh, hchain, List.getElem?_cons_zero, hpe, hft,
            if_false]
        rw [hupd]
        rfl
    constructor
    · intro hc
      rw [hread]
      exact hslot.1 hc
    · intro hc
      rw [hread]
      exact hslot.2 hc

/-- Witness for C1: patching the concrete label blob at insertion point 52
rewrites the strip-offset slot at offset 36 to 300 + 52 - 16 = 336 and
leaves the inline compression entry's slot at offset 56 unchanged. -/
theorem C1_offset_patcher_slots_witness :
    readBytes (patchedOf (update_ifd "label" exLbl 52 2)) 36 8 =
      some (leEncode 8 336) ∧
    readBytes (patchedOf (update_ifd "label" exLbl 52 2)) 56 8 =
      readBytes exLbl 56 8 := by
  constructor
  · exact (C1_offset_patcher_slots "label" exLbl 52 2 16 exLblDir 273
      ⟨24, 16, 1, 36, 300, IFDValue.ints [300]⟩ 8 (by decide) (by decide)
      (by decide) (by decide) (by decide) (by decide) (by decide) rfl).1
      (Or.inr rfl)
  · exact (C1_offset_patcher_slots "label" exLbl 52 2 16 exLblDir 259
      ⟨44, 3, 1, 56, 5, IFDValue.ints [5]⟩ 2 (by decide) (by decide)
      (by decide) (by decide) (by decide) (by decide) (by decide) rfl).2
      (by decide)

/-- C3: the claim says that for every candidate directory, a missing
image-description tag 270 is treated as a non-matching description test and
classification completes without error, also when the compression code does
not match.  The code instead evaluates containment in None and raises a
TypeError on the two-directory input whose label candidate has compression
code 1 (not LZW) and no tag 270; the try/except around reading tag 270
shows the claim is the intent and the code a slip. -/
theorem C3_missing_description_type_error :
    get_label_and_macro_info exDirsNoDesc = Except.error PyError.typeError := by
  decide

/-- C4 counterexample: with the label descriptor unset, zero-fill
de-identification and label-strip reading fail with the generic TypeError
of subscripting None, not with an AuxImageNotFoundError identifying the
missing image. -/
theorem C4_missing_descriptor_counterexample :
    de_identify_slide cexSt4 exSlide = Except.error PyError.typeError ∧
    get_label_data cexSt4 exSlide = Except.error PyError.typeError ∧
    PyError.typeError ≠ PyError.auxImageNotFound "label" ∧
    PyError.typeError ≠ PyError.auxImageNotFound "macro" := by
  decide

/-- C4 amended: when a candidate fails its classification test the
descriptor stays unset (None), and every downstream operation that
subscripts it (zero-fill de-identification, label strip read) fails with a
TypeError, not with a dedicated error naming the missing image. -/
theorem C4_unset_descriptor_type_error (s : TiffState) (f : List Nat) :
    (s.lblDesc = none ∨ s.macDesc = none →
      de_identify_slide s f = Except.error PyError.typeError) ∧
    (s.lblDesc = none → get_label_data s f = Except.error PyError.typeError) := by
  constructor
  · intro h
    unfold de_identify_slide
    cases hl : s.lblDesc with
    | none => rfl
    | some l =>
      cases hm : s.macDesc with
      | none => rfl
      | some m =>
        rcases h with h1 | h2
        · rw [hl] at h1
          cases h1
        · rw [hm] at h2
          cases h2
  · intro h
    unfold get_label_data
    rw [h]

/-- Witness for the amended C4 at a concrete state with an unset label
descriptor and a set macro descriptor. -/
theorem C4_unset_descriptor_type_error_witness :
    de_identify_slide (TiffState.mk "/archive/x.svs" [] none
      (some ⟨3, 208, 4⟩)) [9, 9] = Except.error PyError.typeError ∧
    get_label_data (TiffState.mk "/archive/x.svs" [] none
      (some ⟨3, 208, 4⟩)) [9, 9] = Except.error PyError.typeError :=
  ⟨(C4_unset_descriptor_type_error _ _).1 (Or.inl rfl),
   (C4_unset_descriptor_type_error _ _).2 rfl⟩

/-- C6 counterexample: an oversized strip-offset entry (tag 273, two
8-byte elements) yields the not-materialized sentinel even though its
pointer target is perfectly readable, while the same geometry under the
allow-listed tag 258 is materialized: the allow-list is 270 and 258 only,
not 270, 273, 279 and 258 as claimed. -/
theorem C6_allow_list_counterexample :
    ifd_value exF6 273 16 2 0 16 = Except.ok IFDValue.tooLong ∧
    readBytes exF6 16 16 =
      some [5, 0, 0, 0, 0, 0, 0, 0, 6, 0, 0, 0, 0, 0, 0, 0] ∧
    ifd_value exF6 258 16 2 0 16 = Except.ok (IFDValue.ints [5, 6]) := by
  decide

/-- C6 amended: a value of encoded length at most 8 (including exactly 8)
is decoded from the in-place slot only (the result depends only on the
slot bytes); an oversized value is materialized from the pointer target
exactly for tags 270 and 258 (depending only on the target bytes); every
other oversized tag yields the not-materialized sentinel. -/
theorem C6_value_decoder_paths (f g : List Nat) (tag typ cnt pre doff sz : Nat)
    (ht : typeSize typ = some sz) :
    (cnt * sz ≤ 8 →
      readBytes f pre (cnt * sz) = readBytes g pre (cnt * sz) →
      ifd_value f tag typ cnt pre doff = ifd_value g tag typ cnt pre doff) ∧
    (8 < cnt * sz → (tag = 270 ∨ tag = 258) →
      readBytes f doff (cnt * sz) = readBytes g doff (cnt * sz) →
      ifd_value f tag typ cnt pre doff = ifd_value g tag typ cnt pre doff) ∧
    (8 < cnt * sz → ¬(tag = 270 ∨ tag = 258) →
      ifd_value f tag typ cnt pre doff = Except.ok IFDValue.tooLong) := by
  refine ⟨?_, ?_, ?_⟩
  · intro h8 hr
    simp only [ifd_value, ht, if_pos h8, hr]
  · intro h8 htag hr
    simp only [ifd_value, ht, if_neg (by omega : ¬cnt * sz ≤ 8), if_pos htag,
      hr]
  · intro h8 htag
    simp only [ifd_value, ht, if_neg (by omega : ¬cnt * sz ≤ 8), if_neg htag]

/-- Witness for the amended C6: a boundary-length (exactly 8 bytes) value
is decoded from the slot alone (two files agreeing on the slot decode
identically), and an oversized strip-byte-count entry (tag 279) yields the
sentinel. -/
theorem C6_value_decoder_paths_witness :
    ifd_value inline8A 50 3 4 0 999 = ifd_value inline8B 50 3 4 0 999 ∧
    ifd_value exF6 279 16 2 0 16 = Except.ok IFDValue.tooLong :=
  ⟨(C6_value_decoder_paths inline8A inline8B 50 3 4 0 999 2 rfl).1 (by decide)
      (by decide),
   (C6_value_decoder_paths exF6 exF6 279 16 2 0 16 8 rfl).2.2 (by decide)
      (by decide)⟩

/-- C9 counterexample: a directory whose on-disk entry count is 2 but
whose two entry records carry the same tag number 256 is read into a
single-entry dict: the reader does not keep all N entries. -/
theorem C9_duplicate_tag_counterexample :
    readU exDup 0 8 = some 2 ∧
    (dirEntriesOf (read_IFDs exDup 0)).length = 1 ∧
    ¬(dirEntriesOf (read_IFDs exDup 0)).length = 2 := by
  decide

/-- C9 amended: entries are collected into a dict keyed by tag number, so
a duplicated tag collapses (the later record overwrites the earlier one at
its original position); when the N records carry pairwise distinct tags,
the reader produces exactly the N raw entries in file order. -/
theorem C9_directory_reader_entries (f : List Nat) (off n : Nat)
    (raw : List (Nat × IFDEntry)) (d : DirInfo)
    (hn : readU f off 8 = some n)
    (hraw : readEntries f (off + 8) n = Except.ok raw)
    (hd : read_IFDs f off = Except.ok d)
    (hnodup : (raw.map Prod.fst).Nodup) :
    d.entries = raw ∧ raw.length = n := by
  obtain ⟨n', raw', hn', hraw', _, hent', _, _⟩ := read_IFDs_inv hd
  have hnn : n' = n := by
    rw [hn] at hn'
    exact (Option.some.inj hn').symm
  subst hnn
  have hrr : raw' = raw := by
    rw [hraw] at hraw'
    exact (Except.ok.inj hraw').symm
  subst hrr
  refine ⟨?_, (readEntries_spec hraw).1⟩
  rw [hent']
  exact dictOfList_nodup hnodup

/-- Witness for the amended C9 on the label directory of the concrete
slide: all three distinct-tag records are kept in file order. -/
theorem C9_directory_reader_entries_witness :
    exSlideLblDir.entries = exSlideLblRaw ∧ exSlideLblRaw.length = 3 :=
  C9_directory_reader_entries exSlide 52 3 exSlideLblRaw exSlideLblDir
    (by decide) (by decide) (by decide) (by decide)

/-- C7: on a file with set label and macro descriptors (and an unprotected
path, since the guard precedes the writes), zero-fill de-identification
succeeds, keeps the file length, writes zero bytes over exactly the two
strip ranges and leaves every byte outside them unchanged. -/
theorem C7_zero_fill_frame (s : TiffState) (f : List Nat) (l m : AuxInfo)
    (hl : s.lblDesc = some l) (hm : s.macDesc = some m)
    (hp : protectedPath s.file_path = false)
    (hL : l.strip_offset + l.strip_byte_counts ≤ f.length)
    (hM : m.strip_offset + m.strip_byte_counts ≤ f.length) :
    isOkE (de_identify_slide s f) = true ∧
    (okBytes (de_identify_slide s f)).length = f.length ∧
    ∀ i, (okBytes (de_identify_slide s f))[i]? =
      if (l.strip_offset ≤ i ∧ i < l.strip_offset + l.strip_byte_counts) ∨
          (m.strip_offset ≤ i ∧ i < m.strip_offset + m.strip_byte_counts)
      then some 0 else f[i]? := by
  have hde : de_identify_slide s f = Except.ok
      (writeBytes
        (writeBytes f l.strip_offset (List.replicate l.strip_byte_counts 0))
        m.strip_offset (List.replicate m.strip_byte_counts 0)) := by
    simp [de_identify_slide, hl, hm, hp]
  have hL2 : l.strip_offset + (List.replicate l.strip_byte_counts
      (0 : Nat)).length ≤ f.length := by
    rw [List.length_replicate]
    exact hL
  have hw1len := writeBytes_length hL2
  have hM2 : m.strip_offset + (List.replicate m.strip_byte_counts
      (0 : Nat)).length ≤ (writeBytes f l.strip_offset
        (List.replicate l.strip_byte_counts 0)).length := by
    rw [List.length_replicate, hw1len]
    exact hM
  rw [hde]
  refine ⟨rfl, ?_, ?_⟩
  · simp only [okBytes]
    rw [writeBytes_length hM2, hw1len]
  · intro i
    simp only [okBytes]
    by_cases hmi : m.strip_offset ≤ i ∧ i < m.strip_offset + m.strip_byte_counts
    · rw [if_pos (Or.inr hmi)]
      rw [writeBytes_getElem?_mid hM2 hmi.1
        (by rw [List.length_replicate]; omega)]
      rw [List.getElem?_replicate, if_pos (by omega)]
    · have houter : (writeBytes
          (writeBytes f l.strip_offset (List.replicate l.strip_byte_counts 0))
          m.strip_offset (List.replicate m.strip_byte_counts 0))[i]? =
          (writeBytes f l.strip_offset
            (List.replicate l.strip_byte_counts 0))[i]? := by
        rcases Nat.lt_or_ge i m.strip_offset with hlt | hge
        · exact writeBytes_getElem?_lt hM2 hlt
        · refine writeBytes_getElem?_ge hM2 ?_
          rw [List.length_replicate]
          omega
      rw [houter]
      by_cases hli : l.strip_offset ≤ i ∧ i < l.strip_offset + l.strip_byte_counts
      · rw [if_pos (Or.inl hli)]
        rw [writeBytes_getElem?_mid hL2 hli.1
          (by rw [List.length_replicate]; omega)]
        rw [List.getElem?_replicate, if_pos (by omega)]
      · rw [if_neg (by tauto)]
        rcases Nat.lt_or_ge i l.strip_offset with hlt | hge
        · exact writeBytes_getElem?_lt hL2 hlt
        · refine writeBytes_getElem?_ge hL2 ?_
          rw [List.length_replicate]
          omega

/-- Witness for C7 on the concrete slide: the state parsed from exSlide
has descriptors (2, 204, 4) and (3, 208, 4); zero-fill succeeds, keeps the
212-byte length, zeroes bytes 204 and 211 and leaves byte 100 unchanged. -/
theorem C7_zero_fill_frame_witness :
    isOkE (de_identify_slide
      (tiffStateOf (bigTiffOpen "/archive/a.svs" exSlide 4)) exSlide) = true ∧
    (okBytes (de_identify_slide
      (tiffStateOf (bigTiffOpen "/archive/a.svs" exSlide 4)) exSlide)).length =
      212 ∧
    (okBytes (de_identify_slide
      (tiffStateOf (bigTiffOpen "/archive/a.svs" exSlide 4)) exSlide))[204]? =
      some 0 ∧
    (okBytes (de_identify_slide
      (tiffStateOf (bigTiffOpen "/archive/a.svs" exSlide 4)) exSlide))[211]? =
      some 0 ∧
    (okBytes (de_identify_slide
      (tiffStateOf (bigTiffOpen "/archive/a.svs" exSlide 4)) exSlide))[100]? =
      exSlide[100]? := by
  have h := C7_zero_fill_frame
    (tiffStateOf (bigTiffOpen "/archive/a.svs" exSlide 4)) exSlide
    ⟨2, 204, 4⟩ ⟨3, 208, 4⟩ (by decide) (by decide) (by decide) (by decide)
    (by decide)
  refine ⟨h.1, ?_, ?_, ?_, ?_⟩
  · rw [h.2.1]
    decide
  · rw [h.2.2 204]
    decide
  · rw [h.2.2 211]
    decide
  · rw [h.2.2 100]
    decide

/-- Per-record behavior of the batch loop body when the unguarded checks
pass: the protected-path check does not fire and the slide number parses,
so the body returns the per-record outcome and never raises. -/
theorem processOne_eq (process : String → Except PyError Unit)
    (slide_dir : Option String) (r : BatchRecord) (n : Int)
    (hp : protectedPath (resolvePath slide_dir r) = false)
    (hn : parseIntPy (firstFive (pathStem (resolvePath slide_dir r))) =
      Except.ok n) :
    processOne process slide_dir r =
      Except.ok (recordOutcome process slide_dir r) := by
  by_cases hlt : n < 563
  · simp [processOne, recordOutcome, hp, hn, hlt]
  · simp only [processOne, recordOutcome, hp, hn, hlt]
    simp [procResult]
    cases hpr : process (resolvePath slide_dir r) <;> simp [hpr]

/-- C8 counterexample: a batch of two records whose first resolves into a
protected directory aborts whole with the RuntimeError (raised before the
per-record try), so the error is neither caught nor logged and the second
record is never reached. -/
theorem C8_protected_path_aborts_batch :
    switch_labels_from_file procOk none [recProt, recGood] =
      Except.error (PyError.runtimeError
        "Cannot remove labels in provided directory!!") ∧
    protectedPath (resolvePath none recProt) = true := by
  decide

/-- C8 amended: errors raised inside the guarded LabelSwitcher
construction and label switch are caught and logged and iteration
continues, so under the proviso that no record resolves to a protected
path and every record's slide number parses (both checked before the try,
where a failure aborts the whole batch), the batch returns one
per-record outcome for every record, each depending only on its own
record. -/
theorem C8_batch_isolation (process : String → Except PyError Unit)
    (slide_dir : Option String) (recs : List BatchRecord)
    (h : ∀ r ∈ recs, protectedPath (resolvePath slide_dir r) = false ∧
      isOkE (parseIntPy (firstFive (pathStem (resolvePath slide_dir r)))) =
        true) :
    switch_labels_from_file process slide_dir recs =
      Except.ok (recs.map (recordOutcome process slide_dir)) := by
  induction recs with
  | nil => rfl
  | cons r rest ih =>
    obtain ⟨hp, hok⟩ := h r (List.mem_cons_self _ _)
    have hn : ∃ n, parseIntPy (firstFive (pathStem (resolvePath slide_dir r))) =
        Except.ok n := by
      cases hpr : parseIntPy (firstFive (pathStem (resolvePath slide_dir r))) with
      | ok n => exact ⟨n, rfl⟩
      | error e =>
        rw [hpr] at hok
        simp [isOkE] at hok
    obtain ⟨n, hn⟩ := hn
    simp only [switch_labels_from_file]
    rw [processOne_eq process slide_dir r n hp hn,
      ih (fun q hq => h q (List.mem_cons_of_mem _ hq))]
    simp

/-- Witness for the amended C8: a three-record batch where the second
record's processing fails is not aborted; the failure is logged and the
remaining record still gets its outcome. -/
theorem C8_batch_isolation_witness :
    switch_labels_from_file procSel none [recGood, recFail, recSkip] =
      Except.ok [RecordOutcome.processedOk, RecordOutcome.processedFailed,
        RecordOutcome.skipped] := by
  have h := C8_batch_isolation procSel none [recGood, recFail, recSkip] (by
    intro r hr
    rcases List.mem_cons.mp hr with rfl | hr
    · exact ⟨by decide, by decide⟩
    rcases List.mem_cons.mp hr with rfl | hr
    · exact ⟨by decide, by decide⟩
    rcases List.mem_cons.mp hr with rfl | hr
    · exact ⟨by decide, by decide⟩
    cases hr)
  rw [h]
  decide

/-- C10: for every batch record whose resolved slide path passes the
(earlier) protected-path check and whose filename stem's first five
characters parse as an integer n, the record is skipped before any label
switching or de-identification is attempted when n < 563 (for every
processing function alike, so the slide file is never touched), and is
handed to the guarded processing exactly when n is at least 563. -/
theorem C10_slide_number_cutoff (process : String → Except PyError Unit)
    (slide_dir : Option String) (r : BatchRecord) (n : Int)
    (hp : protectedPath (resolvePath slide_dir r) = false)
    (hn : parseIntPy (firstFive (pathStem (resolvePath slide_dir r))) =
      Except.ok n) :
    (n < 563 →
      processOne process slide_dir r = Except.ok RecordOutcome.skipped) ∧
    (¬n < 563 →
      processOne process slide_dir r =
        Except.ok (procResult process (resolvePath slide_dir r))) := by
  constructor
  · intro hlt
    simp [processOne, hp, hn, hlt]
  · intro hge
    simp only [processOne, hp, hn, hge]
    simp [procResult]
    cases hpr : process (resolvePath slide_dir r) <;> simp [hpr]

/-- Witness for C10: slide 00560 is skipped no matter the processing
function; slide 00800 is processed (and its processing failure is the
outcome). -/
theorem C10_slide_number_cutoff_witness :
    processOne procOk none recSkip = Except.ok RecordOutcome.skipped ∧
    processOne procSel none recFail =
      Except.ok (procResult procSel (resolvePath none recFail)) :=
  ⟨(C10_slide_number_cutoff procOk none recSkip 560 (by decide)
      (by decide)).1 (by decide),
   (C10_slide_number_cutoff procSel none recFail 800 (by decide)
      (by decide)).2 (by decide)⟩

/-- Well-formedness facts that successful directory parsing guarantees:
every entry's 8-byte value slot and the trailing next-pointer field lie
within the file, and every slot ends before the next-pointer field. -/
theorem read_IFDs_entries_wf {f : List Nat} {off : Nat} {d : DirInfo}
    (hd : read_IFDs f off = Except.ok d) :
    (∀ p ∈ d.entries, p.2.pre_data_offset + 8 ≤ f.length) ∧
    d.pre_offset_offset + 8 ≤ f.length ∧
    (∀ p ∈ d.entries, p.2.pre_data_offset + 8 ≤ d.pre_offset_offset) := by
  obtain ⟨n, raw, hn, hraw, hnext, hent, _, hpo⟩ := read_IFDs_inv hd
  obtain ⟨hrawlen, hrawi⟩ := readEntries_spec hraw
  have hpos : ∀ p : Nat × IFDEntry, p ∈ d.entries → ∃ i, ∃ hi : i < raw.length,
      raw.get ⟨i, hi⟩ = p := by
    intro p hp
    have hpr : p ∈ raw := by
      rw [hent] at hp
      exact dictOfList_subset hp
    obtain ⟨⟨i, hi⟩, hgi⟩ := List.mem_iff_get.mp hpr
    exact ⟨i, hi, hgi⟩
  refine ⟨?_, ?_, ?_⟩
  · intro p hp
    obtain ⟨i, hi, hgi⟩ := hpos p hp
    have h1 := (hrawi i hi).2.1
    have h2 := (hrawi i hi).2.2
    rw [hgi] at h1
    omega
  · have := readU_some_le hnext
    omega
  · intro p hp
    obtain ⟨i, hi, hgi⟩ := hpos p hp
    have h1 := (hrawi i hi).2.1
    rw [hgi] at h1
    have hin : i < n := by
      rw [hrawlen] at hi
      exact hi
    omega

/-- Behavior of update_ifd on a label replacement blob with a single
parsed directory: it succeeds only with the next-IFD value equal to the
blob length plus the insertion point, writes that value into the trailing
next-pointer field, and keeps the blob length. -/
theorem update_ifd_label_spec (blob : List Nat) (P fuel fo : Nat)
    (d1 : DirInfo) (pr : List Nat × Option Nat)
    (hh : read_header blob = Except.ok fo)
    (hfo : fo ≠ 0) (hfuel : 1 ≤ fuel)
    (hd : read_IFDs blob fo = Except.ok d1)
    (hnx : d1.next_ifd_offset = 0)
    (hu : update_ifd "label" blob P fuel = Except.ok pr) :
    pr.2 = some (blob.length + P) ∧
    readBytes pr.1 d1.pre_offset_offset 8 =
      some (leEncode 8 (blob.length + P)) ∧
    pr.1.length = blob.length := by
  obtain ⟨hwf, hpo8, _⟩ := read_IFDs_entries_wf hd
  have hchain := read_chain_one hfo hd hnx hfuel
  cases hpe : patchEntries P d1.entries blob with
  | error e0 =>
    have : update_ifd "label" blob P fuel = Except.error e0 := by
      simp only [update_ifd, hh, hchain, List.getElem?_cons_zero, hpe]
    rw [this] at hu
    cases hu
  | ok f1 =>
    have hlen1 : f1.length = blob.length := patchEntries_length hpe hwf
    by_cases hv : f1.length + P < 2 ^ 64
    · have hred : update_ifd "label" blob P fuel = Except.ok
          (writeBytes f1 d1.pre_offset_offset (leEncode 8 (f1.length + P)),
           some (f1.length + P)) := by
        simp only [update_ifd, hh, hchain, List.getElem?_cons_zero, hpe, hv,
          if_true]
      rw [hred] at hu
      cases hu
      have henc8 : (leEncode 8 (f1.length + P)).length = 8 := leEncode_length 8 _
      have hsep : d1.pre_offset_offset +
          (leEncode 8 (f1.length + P)).length ≤ f1.length := by
        rw [henc8]
        omega
      refine ⟨by rw [hlen1], ?_, ?_⟩
      · show readBytes (writeBytes f1 d1.pre_offset_offset
            (leEncode 8 (f1.length + P))) d1.pre_offset_offset 8 =
          some (leEncode 8 (blob.length + P))
        rw [← hlen1]
        have hself := readBytes_writeBytes_self hsep
        rw [henc8] at hself
        exact hself
      · show (writeBytes f1 d1.pre_offset_offset
            (leEncode 8 (f1.length + P))).length = blob.length
        rw [writeBytes_length hsep]
        exact hlen1
    · have hred : update_ifd "label" blob P fuel =
          Except.error PyError.structError := by
        simp only [update_ifd, hh, hchain, List.getElem?_cons_zero, hpe, hv,
          if_true, if_false]
      rw [hred] at hu
      cases hu

/-- C5 counterexample: with remove_original_label_and_macro set to false,
a LabelSwitcher targeting a path inside the protected directory is
constructed without any refusal, and its overwrite-splice changes the
slide bytes: the splice operation does not refuse protected paths before
writing. -/
theorem C5_splice_writes_protected_path :
    protectedPath "/DigitalPathology/a.svs" = true ∧
    isOkE (labelSwitcherInit "/DigitalPathology/a.svs" exSlide exLbl exMac
      false 4) = true ∧
    switch_labels (stateOf (labelSwitcherInit "/DigitalPathology/a.svs"
      exSlide exLbl exMac false 4)) ≠ exSlide := by
  decide

/-- C5 amended: the zero-fill operation refuses a protected target path
with a fatal RuntimeError before writing any byte, and a LabelSwitcher
construction with remove_original_label_and_macro true (the default)
refuses likewise through that zero-fill; the splice itself performs no
path check, so with the flag false it writes to a protected path, and the
batch driver's separate protected-path check aborts the whole batch. -/
theorem C5_protected_guard (path : String) (slideF f b1 b2 : List Nat)
    (fuel : Nat) (st : TiffState) (l m : AuxInfo)
    (hp : protectedPath path = true)
    (hopen : bigTiffOpen path slideF fuel = Except.ok st)
    (hl : st.lblDesc = some l) (hm : st.macDesc = some m) :
    de_identify_slide st f = Except.error (PyError.runtimeError
      "Cannot remove labels in provided directory!!") ∧
    labelSwitcherInit path slideF b1 b2 true fuel = Except.error
      (PyError.runtimeError "Cannot remove labels in provided directory!!") := by
  have hfp : st.file_path = path := by
    unfold bigTiffOpen at hopen
    split at hopen
    · cases hopen
    · rename_i fo h1
      split at hopen
      · cases hopen
      · rename_i dirs h2
        split at hopen
        · cases hopen
        · rename_i lm h3
          cases hopen
          rfl
  have hde : ∀ g : List Nat, de_identify_slide st g = Except.error
      (PyError.runtimeError "Cannot remove labels in provided directory!!") := by
    intro g
    simp [de_identify_slide, hl, hm, hfp, hp]
  refine ⟨hde f, ?_⟩
  simp [labelSwitcherInit, hopen, hde slideF]

/-- Witness for the amended C5 on the concrete slide opened from a
protected path. -/
theorem C5_protected_guard_witness :
    de_identify_slide
      (tiffStateOf (bigTiffOpen "/DigitalPathology/a.svs" exSlide 4))
      exSlide = Except.error (PyError.runtimeError
        "Cannot remove labels in provided directory!!") ∧
    labelSwitcherInit "/DigitalPathology/a.svs" exSlide exLbl exMac true 4 =
      Except.error (PyError.runtimeError
        "Cannot remove labels in provided directory!!") :=
  C5_protected_guard "/DigitalPathology/a.svs" exSlide exSlide exLbl exMac 4
    (tiffStateOf (bigTiffOpen "/DigitalPathology/a.svs" exSlide 4))
    ⟨2, 204, 4⟩ ⟨3, 208, 4⟩ (by decide) (by decide) (by decide) (by decide)

/-- C2 counterexample: patching the concrete label replacement for the
concrete 212-byte slide (label directory at 52) rewrites the trailing
next-directory pointer to 132 = replacement blob length 80 + insertion
point 52, not to end_of_target_file + P = 212 + 52 = 264. -/
theorem C2_next_pointer_is_blob_end_not_target_end :
    isOkE (labelSwitcherInit "/archive/a.svs" exSlide exLbl exMac true 4) =
      true ∧
    (stateOf (labelSwitcherInit "/archive/a.svs" exSlide exLbl exMac
      true 4)).slide_offset_adjustment = 52 ∧
    (stateOf (labelSwitcherInit "/archive/a.svs" exSlide exLbl exMac
      true 4)).next_ifd_offset = 132 ∧
    exLbl.length + 52 = 132 ∧
    exSlide.length + 52 = 264 ∧
    ¬(stateOf (labelSwitcherInit "/archive/a.svs" exSlide exLbl exMac
      true 4)).next_ifd_offset = 264 := by
  decide

/-- C2 amended: when patching a label replacement with insertion point P,
the trailing next-directory pointer (the field immediately after its tag
table) is rewritten to end_of_replacement_blob + P (the blob's own length
plus P, not the target file's length plus P), that same value is returned
to the caller, and it is used as the insertion point of the subsequently
patched macro replacement. -/
theorem C2_label_next_pointer (path : String)
    (slideF lblBlob macBlob : List Nat) (rm : Bool) (fuel fo : Nat)
    (d1 : DirInfo)
    (hh : read_header lblBlob = Except.ok fo)
    (hfo : fo ≠ 0) (hfuel : 1 ≤ fuel)
    (hd : read_IFDs lblBlob fo = Except.ok d1)
    (hnx : d1.next_ifd_offset = 0)
    (hok : isOkE (labelSwitcherInit path slideF lblBlob macBlob rm fuel) =
      true) :
    (stateOf (labelSwitcherInit path slideF lblBlob macBlob rm
      fuel)).next_ifd_offset = lblBlob.length +
      (stateOf (labelSwitcherInit path slideF lblBlob macBlob rm
        fuel)).slide_offset_adjustment ∧
    readBytes (stateOf (labelSwitcherInit path slideF lblBlob macBlob rm
      fuel)).label_img d1.pre_offset_offset 8 =
      some (leEncode 8 ((stateOf (labelSwitcherInit path slideF lblBlob
        macBlob rm fuel)).next_ifd_offset)) ∧
    update_ifd "macro" macBlob ((stateOf (labelSwitcherInit path slideF
      lblBlob macBlob rm fuel)).next_ifd_offset) fuel =
      Except.ok ((stateOf (labelSwitcherInit path slideF lblBlob macBlob rm
        fuel)).mac_img, none) := by
  cases hop : bigTiffOpen path slideF fuel with
  | error e =>
    have : labelSwitcherInit path slideF lblBlob macBlob rm fuel =
        Except.error e := by
      simp only [labelSwitcherInit, hop]
    rw [this] at hok
    simp [isOkE] at hok
  | ok st =>
    cases hrm : (if rm then de_identify_slide st slideF
        else Except.ok slideF) with
    | error e =>
      have : labelSwitcherInit path slideF lblBlob macBlob rm fuel =
          Except.error e := by
        simp only [labelSwitcherInit, hop, hrm]
      rw [this] at hok
      simp [isOkE] at hok
    | ok slideF' =>
      cases hld : st.lblDesc with
      | none =>
        have : labelSwitcherInit path slideF lblBlob macBlob rm fuel =
            Except.error PyError.typeError := by
          simp only [labelSwitcherInit, hop, hrm, hld]
        rw [this] at hok
        simp [isOkE] at hok
      | some l =>
        cases hgd : dictGetDir st.dirs l.directory with
        | none =>
          have : labelSwitcherInit path slideF lblBlob macBlob rm fuel =
              Except.error PyError.keyError := by
            simp only [labelSwitcherInit, hop, hrm, hld, hgd]
          rw [this] at hok
          simp [isOkE] at hok
        | some ld =>
          cases hup : update_ifd "label" lblBlob ld.directory_offset fuel with
          | error e =>
            have : labelSwitcherInit path slideF lblBlob macBlob rm fuel =
                Except.error e := by
              simp only [labelSwitcherInit, hop, hrm, hld, hgd, hup]
            rw [this] at hok
            simp [isOkE] at hok
          | ok pr =>
            obtain ⟨lbl', nx⟩ := pr
            obtain ⟨hsnd, hslotv, hlen⟩ := update_ifd_label_spec lblBlob
              ld.directory_offset fuel fo d1 (lbl', nx) hh hfo hfuel hd hnx hup
            have hnx2 : nx = some (lblBlob.length + ld.directory_offset) :=
              hsnd
            subst hnx2
            cases hmac : update_ifd "macro" macBlob
                (lblBlob.length + ld.directory_offset) fuel with
            | error e =>
              have : labelSwitcherInit path slideF lblBlob macBlob rm fuel =
                  Except.error e := by
                simp only [labelSwitcherInit, hop, hrm, hld, hgd, hup, hmac]
              rw [this] at hok
              simp [isOkE] at hok
            | ok prm =>
              obtain ⟨mac', nxm⟩ := prm
              have hnxm : nxm = none :=
                update_ifd_snd_eq_none hmac (by decide)
              subst hnxm
              have hfin : labelSwitcherInit path slideF lblBlob macBlob rm
                  fuel = Except.ok ⟨path, slideF', ld.directory_offset,
                    lblBlob.length + ld.directory_offset, lbl', mac'⟩ := by
                simp only [labelSwitcherInit, hop, hrm, hld, hgd, hup, hmac]
              rw [hfin]
              exact ⟨rfl, hslotv, hmac⟩

/-- Witness for the amended C2 on the concrete slide and blobs: the next
pointer value is the 80-byte blob length plus the insertion point 52, it
is written into the blob's next-pointer field at offset 64, and the macro
blob is patched with exactly that insertion point. -/
theorem C2_label_next_pointer_witness :
    (stateOf (labelSwitcherInit "/archive/a.svs" exSlide exLbl exMac true
      4)).next_ifd_offset = exLbl.length +
      (stateOf (labelSwitcherInit "/archive/a.svs" exSlide exLbl exMac true
        4)).slide_offset_adjustment ∧
    readBytes (stateOf (labelSwitcherInit "/archive/a.svs" exSlide exLbl
      exMac true 4)).label_img exLblDir.pre_offset_offset 8 =
      some (leEncode 8 ((stateOf (labelSwitcherInit "/archive/a.svs" exSlide
        exLbl exMac true 4)).next_ifd_offset)) ∧
    update_ifd "macro" exMac ((stateOf (labelSwitcherInit "/archive/a.svs"
      exSlide exLbl exMac true 4)).next_ifd_offset) 4 =
      Except.ok ((stateOf (labelSwitcherInit "/archive/a.svs" exSlide exLbl
        exMac true 4)).mac_img, none) :=
  C2_label_next_pointer "/archive/a.svs" exSlide exLbl exMac true 4 16
    exLblDir (by decide) (by decide) (by decide) (by decide) (by decide)
    (by decide)

end SvsLabel
